import Mathlib

/-!
Verification of the slingr framework data-access layer.

This file shallowly embeds the parts of the repository relevant to the
checked claims:
* `InMemoryRepository` (src/framework/dataSources/InMemoryRepository.ts):
  an in-memory store over an ordered array of records, with a simulated
  transaction stack of full snapshots.
* `RestRepository` (same file, second part): the transaction operations,
  which unconditionally throw.
* `BaseService` (src/framework/core/BaseService.ts): the generic record
  service whose default before-hooks run structural validation via the
  class-validator collaborator before delegating to the repository.

Records are modelled as JavaScript objects: ordered association lists from
string keys to primitive values, with first-key-wins lookup (JS objects
never hold a duplicate key, so the operations below agree with JS on every
object the code can build).  Machine-level details that the claims do not
touch (promise scheduling, prototype chains) are not modelled; every
operation of the source runs synchronously to completion, so each method
becomes a pure state-passing function.
-/

/-- A JavaScript primitive value as stored in a record field: a string, a
number, or `undefined` (the result of reading an absent property). -/
inductive Value where
  | str (s : String)
  | num (n : Int)
  | undef
deriving DecidableEq, Repr

/-- A JavaScript object: an ordered list of key/value pairs. -/
abbrev Obj := List (String × Value)

/-- Property read `o[k]`: the value of the first pair with key `k`, or
`undefined` when the key is absent. -/
def Obj.get (o : Obj) (k : String) : Value :=
  match o with
  | [] => .undef
  | p :: rest => if p.1 == k then p.2 else Obj.get rest k

/-- Whether the object has the key `k` (JS `k in o`). -/
def Obj.hasKey (o : Obj) (k : String) : Bool :=
  o.any (fun p => p.1 == k)

/-- JS object spread `{...old, ...new}`: the keys of `old` in order, each
overridden by `new`'s value when `new` has the same key, followed by the
keys of `new` that `old` lacks, in `new`'s order. -/
def Obj.spread (old more : Obj) : Obj :=
  old.map (fun p => (p.1, if more.hasKey p.1 then more.get p.1 else p.2))
    ++ more.filter (fun p => !old.hasKey p.1)

/-- JS `<` on two field values: numeric comparison for numbers, lexicographic
for strings; a comparison involving `undefined` (or mixed types coerced to
NaN) yields false. -/
def jsLt : Value → Value → Bool
  | .num a, .num b => decide (a < b)
  | .str a, .str b => decide (a < b)
  | _, _ => false

/-- Sort direction of an `orderBy` entry (the strings ASC / DESC). -/
inductive SortDir where
  | asc
  | desc
deriving DecidableEq, Repr

/-- `FindOptions`: pagination and ordering options of `find`.  `orderBy`
models the JS object as its `Object.entries` list in insertion order;
`none` is an absent `orderBy`, `some []` an empty object. -/
structure FindOptions where
  limit : Option Nat := none
  offset : Option Nat := none
  orderBy : Option (List (String × SortDir)) := none
deriving DecidableEq, Repr

/-- State of an `InMemoryRepository`: the backing `store` array and the
`transactionStack` of snapshots (top of the stack at the head). -/
structure State where
  store : List Obj
  transactionStack : List (List Obj)
deriving DecidableEq, Repr

namespace InMemoryRepository

/-- `beginTransaction`: pushes a (shallow) copy of the current store onto
the transaction stack. -/
def beginTransaction (st : State) : State :=
  { st with transactionStack := st.store :: st.transactionStack }

/-- `commitTransaction`: pops the top snapshot and discards it.  JS
`Array.prototype.pop` on an empty array returns `undefined` without
raising, leaving the stack empty: modelled by `List.tail`. -/
def commitTransaction (st : State) : State :=
  { st with transactionStack := st.transactionStack.tail }

/-- `rollbackTransaction`: when the stack is non-empty, replaces the live
store with the popped top snapshot; otherwise does nothing. -/
def rollbackTransaction (st : State) : State :=
  match st.transactionStack with
  | [] => st
  | top :: rest => { store := top, transactionStack := rest }

/-- The identifier `create` stores: `data.id ?? randomUUID()`.  The
generated UUID is nondeterministic input, passed here as the explicit
argument `genId`. -/
def effectiveId (data : Obj) (genId : String) : Value :=
  if data.get "id" == Value.undef then .str genId else data.get "id"

/-- `create`: builds `{...data, id: data.id ?? randomUUID()}`, pushes it
onto the store, and returns it. -/
def create (st : State) (data : Obj) (genId : String) : Obj × State :=
  let entity := Obj.spread data [("id", effectiveId data genId)]
  (entity, { st with store := st.store ++ [entity] })

/-- `createMany`: creates each element of the batch in order, collecting
the created entities.  Each element is paired with the UUID the run would
generate for it. -/
def createMany (st : State) (batch : List (Obj × String)) : List Obj × State :=
  match batch with
  | [] => ([], st)
  | (data, genId) :: rest =>
    let (e, st') := create st data genId
    let (es, st'') := createMany st' rest
    (e :: es, st'')

/-- Helper for `update`: the source finds the index of the first element
whose `id` strictly equals `id` and replaces that slot with
`{...store[index], ...data}`; with no match the store is untouched and the
result is `null`. -/
def updateStore (id : String) (data : Obj) : List Obj → Option Obj × List Obj
  | [] => (none, [])
  | item :: rest =>
    if item.get "id" == Value.str id then
      let merged := Obj.spread item data
      (some merged, merged :: rest)
    else
      let (r, rest') := updateStore id data rest
      (r, item :: rest')

/-- `update`: merge `data` onto the first record whose `id` matches;
returns the merged record, or `null` when the id is unknown. -/
def update (st : State) (id : String) (data : Obj) : Option Obj × State :=
  let (r, store') := updateStore id data st.store
  (r, { st with store := store' })

/-- `updateMany`: applies `update` to each `{id, data}` element in order
(the promises run their synchronous bodies in sequence). -/
def updateMany (st : State) (updates : List (String × Obj)) :
    List (Option Obj) × State :=
  match updates with
  | [] => ([], st)
  | (id, data) :: rest =>
    let (r, st') := update st id data
    let (rs, st'') := updateMany st' rest
    (r :: rs, st'')

/-- `delete`: keeps exactly the records whose `id` differs from `id`. -/
def delete (st : State) (id : String) : State :=
  { st with store := st.store.filter (fun item => !(item.get "id" == Value.str id)) }

/-- `deleteMany`: keeps exactly the records whose `id` is not in `ids`. -/
def deleteMany (st : State) (ids : List String) : State :=
  { st with store :=
      st.store.filter (fun item => !(ids.any (fun i => item.get "id" == Value.str i))) }

/-- `findById`: the first record whose `id` strictly equals `id`, else
`null`. -/
def findById (st : State) (id : String) : Option Obj :=
  st.store.find? (fun item => item.get "id" == Value.str id)

/-- `matchesFilter`: every filter entry must strictly equal the record's
corresponding field. -/
def matchesFilter (item : Obj) (filters : Obj) : Bool :=
  filters.all (fun p => item.get p.1 == p.2)

/-- `findOne`: the first record matching the filter, else `null`. -/
def findOne (st : State) (filters : Obj) : Option Obj :=
  st.store.find? (fun item => matchesFilter item filters)

/-- `findAll`: a copy of the whole store. -/
def findAll (st : State) : List Obj :=
  st.store

/-- Comparator of `find`'s sort for an orderBy entry `(key, dir)`:
`-1` when `a[key] < b[key]` (ASC) and the mirrored cases, `0` otherwise. -/
def sortCmp (key : String) (dir : SortDir) (a b : Obj) : Int :=
  if jsLt (a.get key) (b.get key) then (if dir = .asc then -1 else 1)
  else if jsLt (b.get key) (a.get key) then (if dir = .asc then 1 else -1)
  else 0

/-- Stable insertion of `x` into a list sorted by `le`. -/
def sortInsert (le : Obj → Obj → Bool) (x : Obj) : List Obj → List Obj
  | [] => [x]
  | y :: ys => if le x y then x :: y :: ys else y :: sortInsert le x ys

/-- `Array.prototype.sort` with a comparator: a stable sort placing `a`
before `b` whenever the comparator is non-positive (sort is stable per
ECMAScript 2019). -/
def sortWith (cmp : Obj → Obj → Int) (l : List Obj) : List Obj :=
  l.foldr (sortInsert (fun a b => decide (cmp a b ≤ 0))) []

/-- The filtering stage of `find`: with a filter, the matching records;
without one, a copy of the store. -/
def filterResults (st : State) (filters : Option Obj) : List Obj :=
  match filters with
  | some f => st.store.filter (fun item => matchesFilter item f)
  | none => st.store

/-- `find`: filter, then (when `orderBy` is present) sort by the FIRST
`Object.entries` pair, then `slice(offset)` when `offset` is truthy, then
`slice(0, limit)` when `limit` is truthy.  A present but empty `orderBy`
object makes the destructuring `[[key, dir]] = Object.entries(...)` throw
a TypeError, modelled as `none`; every other case returns `some`. -/
def find (st : State) (filters : Option Obj) (options : Option FindOptions) :
    Option (List Obj) :=
  let results := filterResults st filters
  let sorted : Option (List Obj) :=
    match options.bind (fun o => o.orderBy) with
    | none => some results
    | some [] => none
    | some ((key, dir) :: _) => some (sortWith (sortCmp key dir) results)
  sorted.map (fun r =>
    let afterOffset :=
      match options.bind (fun o => o.offset) with
      | some o => if o ≠ 0 then r.drop o else r
      | none => r
    match options.bind (fun o => o.limit) with
    | some l => if l ≠ 0 then afterOffset.take l else afterOffset
    | none => afterOffset)

end InMemoryRepository

/-- One repository operation, as issued by a caller.  `create` carries the
UUID the run would generate when `data` lacks an id; `createMany` pairs
each batch element with its generated UUID. -/
inductive Op where
  | create (data : Obj) (genId : String)
  | createMany (batch : List (Obj × String))
  | update (id : String) (data : Obj)
  | updateMany (updates : List (String × Obj))
  | delete (id : String)
  | deleteMany (ids : List String)
  | beginTx
  | commitTx
  | rollbackTx
deriving DecidableEq, Repr

/-- The state transition of one operation (return values discarded). -/
def applyOp (st : State) : Op → State
  | .create d g => (InMemoryRepository.create st d g).2
  | .createMany b => (InMemoryRepository.createMany st b).2
  | .update i d => (InMemoryRepository.update st i d).2
  | .updateMany u => (InMemoryRepository.updateMany st u).2
  | .delete i => InMemoryRepository.delete st i
  | .deleteMany ids => InMemoryRepository.deleteMany st ids
  | .beginTx => InMemoryRepository.beginTransaction st
  | .commitTx => InMemoryRepository.commitTransaction st
  | .rollbackTx => InMemoryRepository.rollbackTransaction st

/-- Sequential execution of a list of operations. -/
def applyOps (st : State) : List Op → State
  | [] => st
  | op :: rest => applyOps (applyOp st op) rest

/-- Whether the operation is one of the six data mutations (as opposed to
a transaction-control operation). -/
def Op.isMutation : Op → Bool
  | .beginTx => false
  | .commitTx => false
  | .rollbackTx => false
  | _ => true

/-- The identifier values of the stored records, in store order. -/
def storeIds (store : List Obj) : List Value :=
  store.map (fun r => r.get "id")

/-- A field-level violation reported by the class-validator collaborator:
the offending field and the failed rule. -/
structure Violation where
  field : String
  rule : String
deriving DecidableEq, Repr

/-- An error surfaced by a service operation: `validationFailed` carries
the violation list produced by `validateOrReject`. -/
inductive ServiceError where
  | validationFailed (violations : List Violation)
deriving DecidableEq, Repr

namespace BaseService

/-- Default `beforeCreate` hook: builds the transient instance
`Object.assign(new this.entity(), data)` — an object holding exactly the
partial's fields — and runs `validateOrReject` on it.  The validation
collaborator is the parameter `validate`, returning the field-level
violations of the instance against the record type's declared rules;
`validateOrReject` throws them when non-empty. -/
def beforeCreate (validate : Obj → List Violation) (data : Obj) :
    Except ServiceError Unit :=
  match validate data with
  | [] => .ok ()
  | v :: vs => .error (.validationFailed (v :: vs))

/-- Default `beforeUpdate` hook: identical to `beforeCreate` — it
validates `Object.assign(new this.entity(), data)`, i.e. the partial
alone; the stored record is never consulted. -/
def beforeUpdate (validate : Obj → List Violation) (_id : String) (data : Obj) :
    Except ServiceError Unit :=
  match validate data with
  | [] => .ok ()
  | v :: vs => .error (.validationFailed (v :: vs))

/-- `BaseService.create` over an in-memory repository: run `beforeCreate`;
when it throws, the error propagates and the repository is never called;
otherwise delegate to `repo.create` (the default `afterCreate` is a
no-op). -/
def create (validate : Obj → List Violation) (st : State) (data : Obj)
    (genId : String) : Except ServiceError Obj × State :=
  match beforeCreate validate data with
  | .error e => (.error e, st)
  | .ok _ =>
    let (entity, st') := InMemoryRepository.create st data genId
    (.ok entity, st')

/-- `BaseService.update` over an in-memory repository: run `beforeUpdate`;
when it throws, the error propagates and the repository is never called;
otherwise delegate to `repo.update` (the default `afterUpdate` is a
no-op). -/
def update (validate : Obj → List Violation) (st : State) (id : String)
    (data : Obj) : Except ServiceError (Option Obj) × State :=
  match beforeUpdate validate id data with
  | .error e => (.error e, st)
  | .ok _ =>
    let (r, st') := InMemoryRepository.update st id data
    (.ok r, st')

end BaseService

/-- The declared class-validator rules of the `ProductReview` record type
(src/unnamed/part_002): `id` is `IsString`; `review` is `IsString` and
`IsNotEmpty`.  This instantiates the validation collaborator on those
rules: a non-string (in particular an absent, hence `undefined`) value
violates `IsString`, and an empty or non-string `review` violates
`IsNotEmpty`. -/
def reviewValidate (o : Obj) : List Violation :=
  (match o.get "id" with
   | .str _ => []
   | _ => [⟨"id", "isString"⟩])
  ++ (match o.get "review" with
      | .str s => if s = "" then [⟨"review", "isNotEmpty"⟩] else []
      | _ => [⟨"review", "isString"⟩, ⟨"review", "isNotEmpty"⟩])

/-- A thrown JavaScript `Error`, identified by its message. -/
structure JsError where
  message : String
deriving DecidableEq, Repr

/-- The message of the error thrown for unsupported capabilities. -/
def unsupportedOperationMessage : String := "Operation not supported."

/-- A `RestRepository` instance: its entire state is the base URL fixed at
construction; no operation mutates the instance, so any prior call history
leaves it equal to the freshly constructed value. -/
structure RestRepository where
  baseUrl : String
deriving DecidableEq, Repr

namespace RestRepository

/-- `RestRepository.beginTransaction`: unconditionally throws
`new Error("Operation not supported.")`. -/
def beginTransaction (_ : RestRepository) : Except JsError Unit :=
  .error ⟨unsupportedOperationMessage⟩

/-- `RestRepository.commitTransaction`: unconditionally throws
`new Error("Operation not supported.")`. -/
def commitTransaction (_ : RestRepository) : Except JsError Unit :=
  .error ⟨unsupportedOperationMessage⟩

/-- `RestRepository.rollbackTransaction`: unconditionally throws
`new Error("Operation not supported.")`. -/
def rollbackTransaction (_ : RestRepository) : Except JsError Unit :=
  .error ⟨unsupportedOperationMessage⟩

end RestRepository

/-- Freshness side condition for one `create`: the identifier the call will
store (supplied or generated) is not yet among the stored identifiers. -/
def createOK (st : State) (data : Obj) (genId : String) : Prop :=
  InMemoryRepository.effectiveId data genId ∉ storeIds st.store

/-- Freshness side condition for a `createMany` batch: each element's
identifier is fresh at the moment that element is created. -/
def batchOK : State → List (Obj × String) → Prop
  | _, [] => True
  | st, (d, g) :: rest => createOK st d g ∧ batchOK (InMemoryRepository.create st d g).2 rest

/-- Side conditions under which an operation cannot manufacture a
duplicate identifier: creates use fresh identifiers and update partials do
not rebind the `id` field. -/
def opOK (st : State) : Op → Prop
  | .create d g => createOK st d g
  | .createMany b => batchOK st b
  | .update _ d => d.hasKey "id" = false
  | .updateMany us => ∀ u ∈ us, (u.2).hasKey "id" = false
  | _ => True

/-- `opOK` at every step of a run, each in its own pre-state. -/
def opsOK : State → List Op → Prop
  | _, [] => True
  | st, op :: rest => opOK st op ∧ opsOK (applyOp st op) rest

/-- The identifier-distinctness invariant: the live store and every
snapshot on the transaction stack have pairwise-distinct identifiers. -/
def goodState (st : State) : Prop :=
  (storeIds st.store).Nodup ∧ ∀ snap ∈ st.transactionStack, (storeIds snap).Nodup

/-- Example record with id `a`. -/
def exRec : Obj := [("id", Value.str "a"), ("n", Value.num 1)]

/-- Example one-record state. -/
def exSt : State := ⟨[exRec], []⟩

/-- Example create partial that supplies the already-stored id `a`. -/
def dataA : Obj := [("id", Value.str "a"), ("x", Value.num 1)]

/-- A stored `ProductReview` record satisfying all its declared rules. -/
def storedReview : Obj := [("id", Value.str "r1"), ("review", Value.str "good")]

/-- Example state holding `storedReview`. -/
def stR : State := ⟨[storedReview], []⟩

/-- An update partial that changes `review` and omits the required (and
already present) `id` field. -/
def updPartial : Obj := [("review", Value.str "better")]

/-- Claim C8: each of the remote store's `beginTransaction`,
`commitTransaction` and `rollbackTransaction` always fails with the
unsupported-operation error, for every instance (an instance carries no
mutable state, so every prior call history leaves it unchanged). -/
theorem rest_transactions_unsupported (r : RestRepository) :
    r.beginTransaction = Except.error ⟨unsupportedOperationMessage⟩ ∧
    r.commitTransaction = Except.error ⟨unsupportedOperationMessage⟩ ∧
    r.rollbackTransaction = Except.error ⟨unsupportedOperationMessage⟩ :=
  ⟨rfl, rfl, rfl⟩

/-- Claim C9: `commitTransaction` on an empty transaction stack raises no
error (the model is total, mirroring `Array.prototype.pop` returning
`undefined`) and leaves the state, in particular the live store,
unchanged. -/
theorem commit_empty_stack_noop (st : State) (h : st.transactionStack = []) :
    InMemoryRepository.commitTransaction st = st := by
  cases st
  simp_all [InMemoryRepository.commitTransaction]

/-- Witness for C9 at the empty state. -/
theorem commit_empty_stack_noop_witness :
    InMemoryRepository.commitTransaction ⟨[], []⟩ = (⟨[], []⟩ : State) :=
  commit_empty_stack_noop ⟨[], []⟩ rfl

/-- Claim C10: `find` with a multi-entry `orderBy` behaves exactly as
`find` with only the first entry: the destructuring
`[[key, dir]] = Object.entries(orderBy)` takes the first entry and all
further entries are ignored. -/
theorem find_ignores_further_orderBy_entries (st : State) (f : Option Obj)
    (key : String) (dir : SortDir) (rest : List (String × SortDir))
    (lim off : Option Nat) :
    InMemoryRepository.find st f
        (some { limit := lim, offset := off, orderBy := some ((key, dir) :: rest) }) =
      InMemoryRepository.find st f
        (some { limit := lim, offset := off, orderBy := some [(key, dir)] }) :=
  rfl

/-- Claim C1 (amended): with the single `orderBy` pair present, `find`
filters, sorts, drops the first `o` elements, and — when `l ≥ 1` — takes
the first `l`; when `l = 0` the limit option is falsy and skipped, so the
result is the whole filtered, sorted sequence from offset `o` on. -/
theorem find_pipeline (st : State) (f : Option Obj) (key : String)
    (dir : SortDir) (o l : Nat) :
    InMemoryRepository.find st f
        (some { limit := some l, offset := some o, orderBy := some [(key, dir)] }) =
      some (if l = 0 then
        ((InMemoryRepository.sortWith (InMemoryRepository.sortCmp key dir)
          (InMemoryRepository.filterResults st f)).drop o)
      else
        (((InMemoryRepository.sortWith (InMemoryRepository.sortCmp key dir)
          (InMemoryRepository.filterResults st f)).drop o).take l)) := by
  rcases o with _ | o' <;> rcases l with _ | l' <;>
    simp [InMemoryRepository.find]

/-- Counterexample to claim C1 as stated: on a one-record store,
`find` with `limit: 0` returns the record, not the empty slice
`[0, 0+0)` that the claim requires. -/
theorem find_limit_zero_counterexample :
    InMemoryRepository.find exSt none
        (some { limit := some 0, offset := some 0, orderBy := some [("n", SortDir.asc)] }) ≠
      some (((InMemoryRepository.sortWith (InMemoryRepository.sortCmp "n" SortDir.asc)
        (InMemoryRepository.filterResults exSt none)).drop 0).take 0) := by
  decide

/-- Claim C3: a record-service `create` whose data fails the declared
rules (a non-empty violation list from the validation collaborator)
returns the validation error carrying those field-level violations, with
the state returned untouched: the short-circuit happens in `beforeCreate`,
before `repo.create` is ever invoked, so the record count is unchanged. -/
theorem service_create_validation_gate (validate : Obj → List Violation)
    (st : State) (data : Obj) (genId : String) (h : validate data ≠ []) :
    BaseService.create validate st data genId =
      (Except.error (ServiceError.validationFailed (validate data)), st) := by
  rcases hv : validate data with _ | ⟨v, vs⟩
  · exact absurd hv h
  · simp [BaseService.create, BaseService.beforeCreate, hv]

/-- Witness for C3: creating a `ProductReview` from the empty partial
violates its declared rules, errors with the violations, and leaves the
store unchanged. -/
theorem service_create_validation_gate_witness :
    reviewValidate [] ≠ [] ∧
      BaseService.create reviewValidate stR [] "g" =
        (Except.error (ServiceError.validationFailed (reviewValidate [])), stR) :=
  ⟨by decide, service_create_validation_gate reviewValidate stR [] "g" (by decide)⟩

/-- Counterexample to claim C4 as stated: `storedReview` satisfies every
declared rule, and merging the partial `updPartial` onto it also
satisfies every rule — so the claim demands that the update pass
validation and reach the store — yet the service's `update` fails with an
`id: isString` violation, because the default `beforeUpdate` validates
the bare partial on a fresh instance and never consults the stored
record. -/
theorem before_update_merge_counterexample :
    reviewValidate storedReview = [] ∧
    reviewValidate (Obj.spread storedReview updPartial) = [] ∧
    BaseService.update reviewValidate stR "r1" updPartial =
      (Except.error (ServiceError.validationFailed [⟨"id", "isString"⟩]), stR) := by
  exact ⟨by decide, by decide, rfl⟩

/-- Claim C4 (amended): the default `beforeUpdate` validates the partial
alone, populated onto a fresh instance of the record type, never the
merge with the stored record; whenever the partial fails the declared
rules — in particular when it omits a required field the stored record
already carries — the update fails with the validation error and the
store update is never attempted. -/
theorem service_update_validates_partial_alone (validate : Obj → List Violation)
    (st : State) (id : String) (data : Obj) (h : validate data ≠ []) :
    BaseService.update validate st id data =
      (Except.error (ServiceError.validationFailed (validate data)), st) := by
  rcases hv : validate data with _ | ⟨v, vs⟩
  · exact absurd hv h
  · simp [BaseService.update, BaseService.beforeUpdate, hv]

/-- Witness for amended C4: the update of `storedReview` by `updPartial`
fails validation even though the stored record is valid and the merge
would be valid. -/
theorem service_update_validates_partial_alone_witness :
    reviewValidate updPartial ≠ [] ∧
      BaseService.update reviewValidate stR "r1" updPartial =
        (Except.error (ServiceError.validationFailed (reviewValidate updPartial)), stR) :=
  ⟨by decide, service_update_validates_partial_alone reviewValidate stR "r1" updPartial (by decide)⟩

/-- A mutating operation leaves the transaction stack untouched:
`createMany` case, by induction over the batch. -/
theorem createMany_stack (batch : List (Obj × String)) : ∀ st : State,
    (InMemoryRepository.createMany st batch).2.transactionStack = st.transactionStack := by
  induction batch with
  | nil => intro st; rfl
  | cons p rest IH =>
    intro st
    obtain ⟨d, g⟩ := p
    rcases hc : InMemoryRepository.create st d g with ⟨e, st'⟩
    have hstack : st'.transactionStack = st.transactionStack := by
      have h0 : (InMemoryRepository.create st d g).2.transactionStack
          = st.transactionStack := rfl
      rw [hc] at h0
      exact h0
    have h2 := IH st'
    rcases h : InMemoryRepository.createMany st' rest with ⟨es, st2⟩
    rw [h] at h2
    simp only [InMemoryRepository.createMany, hc, h]
    exact h2.trans hstack

/-- A mutating operation leaves the transaction stack untouched:
`update` case. -/
theorem update_stack (st : State) (i : String) (d : Obj) :
    (InMemoryRepository.update st i d).2.transactionStack = st.transactionStack := by
  rcases h : InMemoryRepository.updateStore i d st.store with ⟨r, s⟩
  simp [InMemoryRepository.update, h]

/-- A mutating operation leaves the transaction stack untouched:
`updateMany` case, by induction over the update list. -/
theorem updateMany_stack (updates : List (String × Obj)) : ∀ st : State,
    (InMemoryRepository.updateMany st updates).2.transactionStack = st.transactionStack := by
  induction updates with
  | nil => intro st; rfl
  | cons p rest IH =>
    intro st
    obtain ⟨i, d⟩ := p
    rcases hu : InMemoryRepository.update st i d with ⟨r, stu⟩
    have hstack : stu.transactionStack = st.transactionStack := by
      have h3 := update_stack st i d
      rw [hu] at h3
      exact h3
    have h2 := IH stu
    rcases h : InMemoryRepository.updateMany stu rest with ⟨rs, st2⟩
    rw [h] at h2
    simp only [InMemoryRepository.updateMany, hu, h]
    exact h2.trans hstack

/-- Every mutating operation (create/update/delete and their bulk forms)
leaves the transaction stack untouched. -/
theorem applyOp_mutation_stack (st : State) (op : Op) (h : op.isMutation = true) :
    (applyOp st op).transactionStack = st.transactionStack := by
  cases op with
  | create d g => rfl
  | createMany b => exact createMany_stack b st
  | update i d => exact update_stack st i d
  | updateMany u => exact updateMany_stack u st
  | delete i => rfl
  | deleteMany ids => rfl
  | beginTx => simp [Op.isMutation] at h
  | commitTx => simp [Op.isMutation] at h
  | rollbackTx => simp [Op.isMutation] at h

/-- A run of mutating operations leaves the transaction stack untouched. -/
theorem applyOps_mutation_stack (ops : List Op) : ∀ st : State,
    (∀ op ∈ ops, op.isMutation = true) →
    (applyOps st ops).transactionStack = st.transactionStack := by
  induction ops with
  | nil => intro st _; rfl
  | cons op rest IH =>
    intro st h
    have h1 := applyOp_mutation_stack st op (h op (List.mem_cons_self op rest))
    have h2 := IH (applyOp st op) (fun o ho => h o (List.mem_cons_of_mem op ho))
    simpa [applyOps, h1] using h2

/-- Claim C2: for any starting state and any sequence of
create/update/delete operations (and their bulk forms) run between
`beginTransaction` and `rollbackTransaction`, the rollback restores
`findAll` to exactly the pre-transaction result; and `rollbackTransaction`
on an empty transaction stack is a no-op that changes nothing (and, the
model being total, raises nothing). -/
theorem rollback_restores :
    (∀ (st : State) (ops : List Op), (∀ op ∈ ops, op.isMutation = true) →
      InMemoryRepository.findAll (InMemoryRepository.rollbackTransaction
        (applyOps (InMemoryRepository.beginTransaction st) ops)) =
        InMemoryRepository.findAll st) ∧
    (∀ st : State, st.transactionStack = [] →
      InMemoryRepository.rollbackTransaction st = st) := by
  constructor
  · intro st ops h
    have hs : (applyOps (InMemoryRepository.beginTransaction st) ops).transactionStack
        = st.store :: st.transactionStack := by
      rw [applyOps_mutation_stack ops _ h]; rfl
    simp [InMemoryRepository.rollbackTransaction, hs, InMemoryRepository.findAll]
  · intro st h
    cases st
    simp_all [InMemoryRepository.rollbackTransaction]

/-- Witness for C2: a create followed by a delete inside a transaction is
undone by the rollback, and the empty-stack rollback fixes the example
state. -/
theorem rollback_restores_witness :
    InMemoryRepository.findAll (InMemoryRepository.rollbackTransaction
        (applyOps (InMemoryRepository.beginTransaction exSt)
          [Op.create dataA "g", Op.delete "a"])) =
      InMemoryRepository.findAll exSt ∧
    InMemoryRepository.rollbackTransaction exSt = exSt :=
  ⟨rollback_restores.1 exSt [Op.create dataA "g", Op.delete "a"] (by decide),
   rollback_restores.2 exSt rfl⟩

/-- `updateStore` with no matching identifier returns `null` and the
untouched store. -/
theorem updateStore_not_found (i : String) (d : Obj) : ∀ l : List Obj,
    (∀ r ∈ l, ¬(r.get "id" = Value.str i)) →
    InMemoryRepository.updateStore i d l = (none, l) := by
  intro l
  induction l with
  | nil => intro _; rfl
  | cons item rest IH =>
    intro h
    have h1 : ¬(item.get "id" = Value.str i) := h item (List.mem_cons_self item rest)
    have h2 := IH (fun r hr => h r (List.mem_cons_of_mem item hr))
    simp [InMemoryRepository.updateStore, h1, h2]

/-- `updateStore` replaces exactly the first slot whose identifier
matches, with the spread-merged record. -/
theorem updateStore_found (i : String) (d : Obj) : ∀ (pre : List Obj) (r : Obj)
    (post : List Obj), (∀ x ∈ pre, ¬(x.get "id" = Value.str i)) →
    r.get "id" = Value.str i →
    InMemoryRepository.updateStore i d (pre ++ r :: post) =
      (some (Obj.spread r d), pre ++ Obj.spread r d :: post) := by
  intro pre
  induction pre with
  | nil =>
    intro r post _ hr
    simp [InMemoryRepository.updateStore, hr]
  | cons x xs IH =>
    intro r post hpre hr
    have h1 : ¬(x.get "id" = Value.str i) := hpre x (List.mem_cons_self x xs)
    have h2 := IH r post (fun y hy => hpre y (List.mem_cons_of_mem x hy)) hr
    simp [InMemoryRepository.updateStore, h1, h2]

/-- Claim C7: `update` on an unknown id returns the null result (no error
in the model), creates nothing and leaves the state unchanged; on a known
id it replaces the first matching record with the merge of the partial
onto that record's fields and returns the merged record. -/
theorem update_contract (st : State) (i : String) (d : Obj) :
    ((∀ r ∈ st.store, ¬(r.get "id" = Value.str i)) →
      InMemoryRepository.update st i d = (none, st)) ∧
    (∀ (pre : List Obj) (r : Obj) (post : List Obj),
      st.store = pre ++ r :: post →
      (∀ x ∈ pre, ¬(x.get "id" = Value.str i)) →
      r.get "id" = Value.str i →
      InMemoryRepository.update st i d =
        (some (Obj.spread r d), { st with store := pre ++ Obj.spread r d :: post })) := by
  constructor
  · intro h
    have h1 := updateStore_not_found i d st.store h
    simp [InMemoryRepository.update, h1]
  · intro pre r post hsplit hpre hr
    have h1 := updateStore_found i d pre r post hpre hr
    simp [InMemoryRepository.update, hsplit, h1]

/-- Witness for C7: both branches at concrete inputs — an unknown id is a
null-result no-op, and a known id merges onto the stored record. -/
theorem update_contract_witness :
    InMemoryRepository.update exSt "z" updPartial = (none, exSt) ∧
    InMemoryRepository.update stR "r1" updPartial =
      (some (Obj.spread storedReview updPartial),
        { stR with store := [] ++ Obj.spread storedReview updPartial :: [] }) :=
  ⟨(update_contract exSt "z" updPartial).1 (by decide),
   (update_contract stR "r1" updPartial).2 [] storedReview [] rfl (by decide) (by decide)⟩

/-- A key absent from an object reads as `undefined`. -/
theorem Obj.get_eq_undef_of_not_hasKey : ∀ (o : Obj) (k : String),
    Obj.hasKey o k = false → Obj.get o k = Value.undef := by
  intro o k
  induction o with
  | nil => intro _; rfl
  | cons p rest IH =>
    intro h
    simp only [Obj.hasKey, List.any_cons, Bool.or_eq_false_iff] at h
    simp only [Obj.get, h.1, Bool.false_eq_true, if_false]
    exact IH h.2

/-- Unfolding `Obj.hasKey` one step. -/
theorem Obj.hasKey_cons (p : String × Value) (rest : Obj) (k : String) :
    Obj.hasKey (p :: rest) k = ((p.1 == k) || Obj.hasKey rest k) := rfl

/-- Property read distributes over list append, preferring the left
part when it holds the key. -/
theorem Obj.get_append (l₁ l₂ : Obj) (k : String) :
    Obj.get (l₁ ++ l₂) k =
      if Obj.hasKey l₁ k then Obj.get l₁ k else Obj.get l₂ k := by
  induction l₁ with
  | nil => simp [Obj.get, Obj.hasKey]
  | cons p rest IH =>
    by_cases hk : p.1 = k
    · simp [Obj.get, Obj.hasKey, hk]
    · have hbeq : (p.1 == k) = false := by simp [hk]
      simp only [List.cons_append, Obj.get, hbeq, Bool.false_eq_true, if_false,
        Obj.hasKey_cons, Bool.false_or]
      exact IH

/-- Reading `k` from the key-preserving override map of `Obj.spread`. -/
theorem Obj.get_map_override (more : Obj) (k : String) : ∀ old : Obj,
    Obj.get (old.map (fun p => (p.1, if Obj.hasKey more p.1 then Obj.get more p.1 else p.2))) k =
      (if Obj.hasKey old k then
        (if Obj.hasKey more k then Obj.get more k else Obj.get old k)
      else Value.undef) := by
  intro old
  induction old with
  | nil => simp [Obj.get, Obj.hasKey]
  | cons p rest IH =>
    by_cases hk : p.1 = k
    · subst hk
      simp [Obj.get, Obj.hasKey]
    · have hbeq : (p.1 == k) = false := by simp [hk]
      have hhk : Obj.hasKey (p :: rest) k = Obj.hasKey rest k := by
        simp [Obj.hasKey, hbeq]
      rw [List.map_cons]
      simp only [Obj.get, hbeq, Bool.false_eq_true, if_false, hhk, IH]

/-- Filtering with a predicate that keeps every pair keyed `k` does not
change the value read at `k`. -/
theorem Obj.get_filter_kept (f : String × Value → Bool) (k : String)
    (hf : ∀ v : Value, f (k, v) = true) : ∀ l : Obj,
    Obj.get (l.filter f) k = Obj.get l k := by
  intro l
  induction l with
  | nil => rfl
  | cons q rest IH =>
    obtain ⟨q1, q2⟩ := q
    by_cases hq : q1 = k
    · subst hq
      have hfq : f (q1, q2) = true := hf q2
      simp [List.filter_cons, hfq, Obj.get, IH]
    · have hbeq : (q1 == k) = false := by simp [hq]
      by_cases hfq : f (q1, q2) = true
      · simp [List.filter_cons, hfq, Obj.get, hbeq, IH]
      · simp only [Bool.not_eq_true] at hfq
        simp [List.filter_cons, hfq, Obj.get, hbeq, IH]

/-- The key lemma about JS spread: a read of `{...old, ...more}` yields
`more`'s value when `more` has the key, else `old`'s. -/
theorem Obj.get_spread (old more : Obj) (k : String) :
    (Obj.spread old more).get k =
      if Obj.hasKey more k then Obj.get more k else Obj.get old k := by
  unfold Obj.spread
  rw [Obj.get_append]
  have hmapkey : Obj.hasKey
      (old.map (fun p => (p.1, if Obj.hasKey more p.1 then Obj.get more p.1 else p.2))) k =
      Obj.hasKey old k := by
    simp only [Obj.hasKey, List.any_map]
    rfl
  rw [hmapkey, Obj.get_map_override]
  by_cases hold : Obj.hasKey old k = true
  · simp [hold]
  · have hold' : Obj.hasKey old k = false := by simpa using hold
    have hkept : ∀ v : Value, (fun p : String × Value => !Obj.hasKey old p.1) (k, v) = true := by
      intro v
      simp [hold']
    rw [Obj.get_filter_kept _ _ hkept more]
    by_cases hmore : Obj.hasKey more k = true
    · simp [hold', hmore]
    · have hmore' : Obj.hasKey more k = false := by simpa using hmore
      simp [hold', hmore', Obj.get_eq_undef_of_not_hasKey old k hold',
        Obj.get_eq_undef_of_not_hasKey more k hmore']

/-- The record `create` stores carries exactly the effective identifier
(the supplied one, or the generated UUID when absent). -/
theorem create_entity_id (st : State) (data : Obj) (genId : String) :
    (InMemoryRepository.create st data genId).1.get "id" =
      InMemoryRepository.effectiveId data genId := by
  show (Obj.spread data [("id", InMemoryRepository.effectiveId data genId)]).get "id" = _
  rw [Obj.get_spread]
  simp [Obj.hasKey, Obj.get]

/-- Counterexample to claim C6 as stated: on a store already holding a
record with id `a`, creating a partial that supplies the same id `a`
succeeds, but `findById "a"` then returns the OLD first-matching record,
which is not structurally equal to the created one — the store never
checks supplied identifiers for uniqueness. -/
theorem create_findById_counterexample :
    InMemoryRepository.findById (InMemoryRepository.create exSt dataA "g").2 "a" ≠
      some (InMemoryRepository.create exSt dataA "g").1 := by
  decide

/-- Claim C6 (amended): when the created record's identifier (supplied or
generated) is a string not already present among the stored identifiers,
`create` followed by `findById` on that identifier returns exactly the
record `create` returned. -/
theorem create_findById_roundtrip (st : State) (data : Obj) (genId i : String)
    (hid : InMemoryRepository.effectiveId data genId = Value.str i)
    (hfresh : Value.str i ∉ storeIds st.store) :
    InMemoryRepository.findById (InMemoryRepository.create st data genId).2 i =
      some (InMemoryRepository.create st data genId).1 := by
  have hent : (InMemoryRepository.create st data genId).1.get "id" = Value.str i := by
    rw [create_entity_id, hid]
  have hnone : st.store.find? (fun item => item.get "id" == Value.str i) = none := by
    rw [List.find?_eq_none]
    intro r hr
    simp only [beq_iff_eq]
    intro hcontra
    exact hfresh (List.mem_map.mpr ⟨r, hr, hcontra⟩)
  have hstore : (InMemoryRepository.create st data genId).2.store =
      st.store ++ [(InMemoryRepository.create st data genId).1] := rfl
  unfold InMemoryRepository.findById
  rw [hstore, List.find?_append, hnone]
  simp [hent]

/-- Witness for amended C6: a create with a generated id on the example
store round-trips through `findById`. -/
theorem create_findById_roundtrip_witness :
    InMemoryRepository.effectiveId [("x", Value.num 7)] "g" = Value.str "g" ∧
    InMemoryRepository.findById
        (InMemoryRepository.create exSt [("x", Value.num 7)] "g").2 "g" =
      some (InMemoryRepository.create exSt [("x", Value.num 7)] "g").1 :=
  ⟨by decide,
   create_findById_roundtrip exSt [("x", Value.num 7)] "g" "g" (by decide) (by decide)⟩

/-- `storeIds` distributes over append. -/
theorem storeIds_append (l₁ l₂ : List Obj) :
    storeIds (l₁ ++ l₂) = storeIds l₁ ++ storeIds l₂ :=
  List.map_append _ l₁ l₂

/-- Counterexample to claim C5 as stated: from the empty store, two
creates that both supply the identifier `a` are accepted, reaching a
state whose stored identifiers are NOT pairwise distinct — `create` never
checks a caller-supplied id against the store. -/
theorem distinct_ids_counterexample :
    ¬ (storeIds (applyOps ⟨[], []⟩
        [Op.create [("id", Value.str "a")] "g1",
         Op.create [("id", Value.str "a")] "g2"]).store).Nodup := by
  decide

/-- An update whose partial does not rebind `id` leaves the stored
identifier sequence unchanged. -/
theorem updateStore_ids (i : String) (d : Obj) (hd : Obj.hasKey d "id" = false) :
    ∀ l : List Obj, storeIds (InMemoryRepository.updateStore i d l).2 = storeIds l := by
  intro l
  induction l with
  | nil => rfl
  | cons item rest IH =>
    rcases hb : (item.get "id" == Value.str i) with _ | _
    · rcases hrec : InMemoryRepository.updateStore i d rest with ⟨r, rest2⟩
      have h2 := IH
      rw [hrec] at h2
      simp only [InMemoryRepository.updateStore, hb, Bool.false_eq_true, if_false, hrec]
      simp only [storeIds, List.map_cons] at h2 ⊢
      rw [h2]
    · have hmerged : (Obj.spread item d).get "id" = item.get "id" := by
        rw [Obj.get_spread]
        simp [hd]
      simp only [InMemoryRepository.updateStore, hb, if_true]
      simp only [storeIds, List.map_cons, hmerged]

/-- `goodState` is preserved by `create` when the effective identifier is
fresh. -/
theorem goodState_create (st : State) (d : Obj) (g : String) (hg : goodState st)
    (hok : createOK st d g) : goodState (InMemoryRepository.create st d g).2 := by
  have hid := create_entity_id st d g
  constructor
  · have hstore : (InMemoryRepository.create st d g).2.store
        = st.store ++ [(InMemoryRepository.create st d g).1] := rfl
    rw [hstore, storeIds_append, List.nodup_append]
    refine ⟨hg.1, by simp [storeIds], ?_⟩
    simp only [storeIds, List.map_cons, List.map_nil, List.disjoint_singleton]
    rw [hid]
    exact hok
  · exact hg.2

/-- `goodState` is preserved by `createMany` when every batch element's
identifier is fresh at its turn. -/
theorem goodState_createMany : ∀ (b : List (Obj × String)) (st : State),
    goodState st → batchOK st b → goodState (InMemoryRepository.createMany st b).2 := by
  intro b
  induction b with
  | nil => intro st hg _; exact hg
  | cons p rest IH =>
    intro st hg hok
    obtain ⟨d, g⟩ := p
    have hok' : createOK st d g ∧ batchOK (InMemoryRepository.create st d g).2 rest := hok
    have hg' := goodState_create st d g hg hok'.1
    rcases hc : InMemoryRepository.create st d g with ⟨e, st'⟩
    rw [hc] at hg'
    have hb2 := hok'.2
    rw [hc] at hb2
    have hrec := IH st' hg' hb2
    rcases h : InMemoryRepository.createMany st' rest with ⟨es, st2⟩
    rw [h] at hrec
    simp only [InMemoryRepository.createMany, hc, h]
    exact hrec

/-- `goodState` is preserved by `update` when the partial does not rebind
`id`. -/
theorem goodState_update (st : State) (i : String) (d : Obj) (hg : goodState st)
    (hd : Obj.hasKey d "id" = false) : goodState (InMemoryRepository.update st i d).2 := by
  have hids := updateStore_ids i d hd st.store
  rcases h : InMemoryRepository.updateStore i d st.store with ⟨r, s⟩
  rw [h] at hids
  constructor
  · simp only [InMemoryRepository.update, h]
    show (storeIds s).Nodup
    rw [show storeIds s = storeIds st.store from hids]
    exact hg.1
  · simp only [InMemoryRepository.update, h]
    exact hg.2

/-- `goodState` is preserved by `updateMany` when no element's partial
rebinds `id`. -/
theorem goodState_updateMany : ∀ (us : List (String × Obj)) (st : State),
    goodState st → (∀ u ∈ us, Obj.hasKey u.2 "id" = false) →
    goodState (InMemoryRepository.updateMany st us).2 := by
  intro us
  induction us with
  | nil => intro st hg _; exact hg
  | cons p rest IH =>
    intro st hg hok
    obtain ⟨i, d⟩ := p
    have hg' := goodState_update st i d hg (hok (i, d) (List.mem_cons_self _ _))
    rcases hu : InMemoryRepository.update st i d with ⟨r, st'⟩
    rw [hu] at hg'
    have hrec := IH st' hg' (fun u hmem => hok u (List.mem_cons_of_mem _ hmem))
    rcases h : InMemoryRepository.updateMany st' rest with ⟨rs, st2⟩
    rw [h] at hrec
    simp only [InMemoryRepository.updateMany, hu, h]
    exact hrec

/-- `goodState` is preserved by `delete` (filtering only removes
records). -/
theorem goodState_delete (st : State) (i : String) (hg : goodState st) :
    goodState (InMemoryRepository.delete st i) :=
  ⟨List.Nodup.sublist (List.Sublist.map _ (List.filter_sublist st.store)) hg.1, hg.2⟩

/-- `goodState` is preserved by `deleteMany`. -/
theorem goodState_deleteMany (st : State) (ids : List String) (hg : goodState st) :
    goodState (InMemoryRepository.deleteMany st ids) :=
  ⟨List.Nodup.sublist (List.Sublist.map _ (List.filter_sublist st.store)) hg.1, hg.2⟩

/-- `goodState` is preserved by `beginTransaction` (the pushed snapshot is
the live store, which is Nodup). -/
theorem goodState_beginTx (st : State) (hg : goodState st) :
    goodState (InMemoryRepository.beginTransaction st) := by
  refine ⟨hg.1, ?_⟩
  intro snap hs
  rcases List.mem_cons.mp hs with h | h
  · rw [h]; exact hg.1
  · exact hg.2 snap h

/-- `goodState` is preserved by `commitTransaction` (the stack only
shrinks). -/
theorem goodState_commitTx (st : State) (hg : goodState st) :
    goodState (InMemoryRepository.commitTransaction st) := by
  refine ⟨hg.1, ?_⟩
  intro snap hs
  have hs' : snap ∈ st.transactionStack.tail := hs
  rcases hstk : st.transactionStack with _ | ⟨top, rest⟩
  · rw [hstk] at hs'
    simp at hs'
  · rw [hstk] at hs'
    exact hg.2 snap (by rw [hstk]; exact List.mem_cons_of_mem _ hs')

/-- `goodState` is preserved by `rollbackTransaction` (the restored store
is a snapshot, hence Nodup). -/
theorem goodState_rollbackTx (st : State) (hg : goodState st) :
    goodState (InMemoryRepository.rollbackTransaction st) := by
  rcases hstk : st.transactionStack with _ | ⟨top, rest⟩
  · have hr : InMemoryRepository.rollbackTransaction st = st := by
      simp [InMemoryRepository.rollbackTransaction, hstk]
    rw [hr]
    exact hg
  · constructor
    · simp only [InMemoryRepository.rollbackTransaction, hstk]
      exact hg.2 top (by rw [hstk]; exact List.mem_cons_self _ _)
    · simp only [InMemoryRepository.rollbackTransaction, hstk]
      intro snap hs
      exact hg.2 snap (by rw [hstk]; exact List.mem_cons_of_mem _ hs)

/-- One step of the amended C5 invariant. -/
theorem goodState_step (st : State) (op : Op) (hg : goodState st) (hok : opOK st op) :
    goodState (applyOp st op) := by
  cases op with
  | create d g => exact goodState_create st d g hg hok
  | createMany b => exact goodState_createMany b st hg hok
  | update i d => exact goodState_update st i d hg hok
  | updateMany u => exact goodState_updateMany u st hg hok
  | delete i => exact goodState_delete st i hg
  | deleteMany ids => exact goodState_deleteMany st ids hg
  | beginTx => exact goodState_beginTx st hg
  | commitTx => exact goodState_commitTx st hg
  | rollbackTx => exact goodState_rollbackTx st hg

/-- Claim C5 (amended): starting from a state whose stored identifiers
(and snapshot identifiers) are pairwise distinct, every sequence of store
operations whose creates use identifiers not currently stored and whose
update partials do not rebind the `id` field reaches only states whose
stored identifiers are pairwise distinct.  (Without those side conditions
the property is false: see the counterexample, where two creates supply
the same id.) -/
theorem reachable_ids_nodup : ∀ (ops : List Op) (st : State),
    goodState st → opsOK st ops → (storeIds (applyOps st ops).store).Nodup := by
  intro ops
  induction ops with
  | nil => intro st hg _; exact hg.1
  | cons op rest IH =>
    intro st hg hok
    have hok' : opOK st op ∧ opsOK (applyOp st op) rest := hok
    exact IH (applyOp st op) (goodState_step st op hg hok'.1) hok'.2

/-- Witness for amended C5: a fresh-id create followed by a delete keeps
the identifiers distinct on the example store. -/
theorem reachable_ids_nodup_witness :
    (storeIds (applyOps exSt
        [Op.create [("x", Value.num 1)] "g", Op.delete "a"]).store).Nodup := by
  refine reachable_ids_nodup _ exSt ⟨by decide, by decide⟩ ⟨?_, trivial, trivial⟩
  show InMemoryRepository.effectiveId [("x", Value.num 1)] "g" ∉ storeIds exSt.store
  decide
